import Mathlib

/-!
Verification of the serializ3r ML credential-dump normalizer
(`ml_normalizer.py`) against its natural-language specification.

Lines and tokens are modelled as `List Char` (ASCII, as exercised by the
program's inputs).  Python floats are modelled as exact rationals (`Rat`);
Python's `None` becomes `Option`; an exception raised during per-line
processing becomes `Except.error ()`.  Each definition is a direct
translation of the correspondingly named Python function.
-/

namespace Serializ3r

/-! Rational constants and arithmetic are written through `mkRat`-based
wrappers (`q`, `ratAdd`, `ratSub`, `ratMin`, `ratDiv`), each proven equal to
the corresponding standard `Rat` operation (`ratAdd_eq`, …).  The standard
operations are `@[irreducible]`, which would make the model impossible to
evaluate inside the kernel on concrete inputs; the wrappers are
kernel-computable and definitionally faithful via the bridge lemmas. -/

/-- The rational constant `n / d` (e.g. `q 6 10` is the literal `0.6`). -/
def q (n d : Nat) : Rat := mkRat n d

/-- Kernel-computable rational addition. -/
def ratAdd (a b : Rat) : Rat := mkRat (a.num * b.den + b.num * a.den) (a.den * b.den)

/-- Kernel-computable rational subtraction. -/
def ratSub (a b : Rat) : Rat := mkRat (a.num * b.den - b.num * a.den) (a.den * b.den)

/-- Kernel-computable rational minimum. -/
def ratMin (a b : Rat) : Rat := if a ≤ b then a else b

/-- Kernel-computable quotient of naturals as a rational. -/
def ratDiv (a b : Nat) : Rat := mkRat a b

/-- Python whitespace, the character class matched by `\s` and stripped by
`str.strip()` (ASCII): space, tab, newline, carriage return, vertical tab,
form feed. -/
def isPySpace (c : Char) : Bool :=
  c == ' ' || c == '\t' || c == '\n' || c == '\r' || c == '\x0b' || c == '\x0c'

/-- Python regex word character `\w` (ASCII): letters, digits, underscore.
Used to evaluate the `\b` word-boundary assertions of the pattern library. -/
def isWordChar (c : Char) : Bool :=
  c.isAlphanum || c == '_'

/-- The character class `[a-fA-F0-9]` of the hash patterns. -/
def isHexDigitChar (c : Char) : Bool :=
  c.isDigit || (decide ('a' ≤ c) && decide (c ≤ 'f')) || (decide ('A' ≤ c) && decide (c ≤ 'F'))

/-- `str.strip()`: drop Python whitespace from both ends. -/
def pyStrip (l : List Char) : List Char :=
  ((l.dropWhile isPySpace).reverse.dropWhile isPySpace).reverse

/-- Scan loop of `str.count(sub)`: `skip` is the number of characters of a
just-matched occurrence still to be passed over (so matches never
overlap — Python semantics).  Structural in the list so the kernel can
evaluate it. -/
def countSubAux (sub : List Char) : Nat → List Char → Nat
  | _, [] => 0
  | 0, c :: rest =>
      if sub.isPrefixOf (c :: rest) then 1 + countSubAux sub (sub.length - 1) rest
      else countSubAux sub 0 rest
  | k + 1, _ :: rest => countSubAux sub k rest

/-- `str.count(sub)` for a non-empty `sub`: number of non-overlapping
occurrences, scanning left to right. -/
def countSub (sub : List Char) (l : List Char) : Nat :=
  countSubAux sub 0 l

/-- Scan loop of `str.split(sep)`: `skip` as in `countSubAux` (separator
characters are consumed, not appended to the current piece). -/
def pySplitAux (sep : List Char) : Nat → List Char → List (List Char)
  | _, [] => [[]]
  | 0, c :: rest =>
      if sep.isPrefixOf (c :: rest) then [] :: pySplitAux sep (sep.length - 1) rest
      else
        match pySplitAux sep 0 rest with
        | [] => [[c]]
        | f :: fs => (c :: f) :: fs
  | k + 1, _ :: rest => pySplitAux sep k rest

/-- `str.split(sep)` for a non-empty separator `sep`: split at each
non-overlapping occurrence, keeping empty pieces (Python semantics). -/
def pySplit (sep : List Char) (l : List Char) : List (List Char) :=
  pySplitAux sep 0 l

/-- Accumulator version of `str.split()` (whitespace split, no empty pieces). -/
def pySplitWsAux : List Char → List Char → List (List Char)
  | [], acc => if acc.isEmpty then [] else [acc.reverse]
  | c :: rest, acc =>
      if isPySpace c then
        if acc.isEmpty then pySplitWsAux rest [] else acc.reverse :: pySplitWsAux rest []
      else pySplitWsAux rest (c :: acc)

/-- `str.split()` with no argument: split on whitespace runs, dropping
empty pieces. -/
def pySplitWs (l : List Char) : List (List Char) :=
  pySplitWsAux l []

/-- Does `sub` occur anywhere in the list (used for the `re.search` of
plain-text noise keywords)? -/
def hasSub (sub : List Char) : List Char → Bool
  | [] => sub.isEmpty
  | c :: rest => sub.isPrefixOf (c :: rest) || hasSub sub rest

namespace PatternLibrary

/-- Character class of the email local part, `[A-Za-z0-9._%+-]`. -/
def isLocalChar (c : Char) : Bool :=
  c.isAlphanum || c == '.' || c == '_' || c == '%' || c == '+' || c == '-'

/-- Character class of the email domain, `[A-Za-z0-9.-]`. -/
def isDomainChar (c : Char) : Bool :=
  c.isAlphanum || c == '.' || c == '-'

/-- Character class of the email TLD, `[A-Z|a-z]` (the class literally
contains the bar character). -/
def isTldChar (c : Char) : Bool :=
  c.isAlpha || c == '|'

/-- Scans the TLD part `[A-Z|a-z]{2,}\b` of the email pattern.  `cnt` is the
number of TLD characters consumed so far and `prev` the last one; at each
point the engine may stop (if at least two were consumed and a word boundary
follows) or consume one more TLD character — existential (backtracking)
semantics of the regex. -/
def tldScan : Nat → Char → List Char → Bool
  | cnt, prev, [] => decide (2 ≤ cnt) && isWordChar prev
  | cnt, prev, c :: rest =>
      (decide (2 ≤ cnt) && (isWordChar prev != isWordChar c)) ||
      (isTldChar c && tldScan (cnt + 1) c rest)

/-- The suffix `[A-Z|a-z]{2,}\b` of the email pattern matches here. -/
def tldOk : List Char → Bool
  | [] => false
  | c :: rest => isTldChar c && tldScan 1 c rest

/-- The suffix `[A-Za-z0-9.-]+\.[A-Z|a-z]{2,}\b` of the email pattern matches
here; `consumed` counts domain characters consumed so far.  A dot can either
serve as the literal `\.` separator (when at least one domain character
precedes it) or be consumed by the `+` part, which also contains dots. -/
def domTld : Nat → List Char → Bool
  | _, [] => false
  | consumed, c :: rest =>
      (c == '.' && decide (1 ≤ consumed) && tldOk rest) ||
      (isDomainChar c && domTld (consumed + 1) rest)

/-- The email pattern without its leading `\b`, matched at the head of `s`:
`[A-Za-z0-9._%+-]+@` followed by the domain part.  Because `@` is not a
local-part character, the greedy local run is forced to end exactly at the
first non-local character, which must be `@`. -/
def emailCore (s : List Char) : Bool :=
  match s.dropWhile isLocalChar with
  | c :: r2 => !(s.takeWhile isLocalChar).isEmpty && c == '@' && domTld 0 r2
  | [] => false

/-- `PatternLibrary.EMAIL.match(s)`: the email pattern anchored at the start
of `s`.  The leading `\b` at position 0 holds exactly when the first
character is a word character. -/
def emailMatch (s : List Char) : Bool :=
  match s with
  | [] => false
  | c :: _ => isWordChar c && emailCore s

/-- Search loop for `PatternLibrary.EMAIL.search`: try the pattern at each
position, tracking whether the previous character was a word character so
the leading `\b` can be evaluated. -/
def emailSearchAux : Bool → List Char → Bool
  | _, [] => false
  | prevWord, c :: rest =>
      ((prevWord != isWordChar c) && emailCore (c :: rest)) ||
      emailSearchAux (isWordChar c) rest

/-- `PatternLibrary.EMAIL.search(line)`. -/
def emailSearch (l : List Char) : Bool :=
  emailSearchAux false l

/-- `re.compile(r'\b[a-fA-F0-9]{n}\b').match(s)` for the hash patterns
(`n` = 32 for MD5/NTLM, 40 for SHA1, 64 for SHA256, 128 for SHA512):
`n` hex digits at the start of `s` followed by a word boundary.  Python's
`match` anchors only at the start, so trailing characters are allowed as
long as the first of them is not a word character. -/
def hexMatchAt (n : Nat) (s : List Char) : Bool :=
  decide (n ≤ s.length) && (s.take n).all isHexDigitChar &&
    (decide (s.length = n) || !isWordChar (s.getD n ' '))

/-- Search loop for the `.search` form of the hash patterns. -/
def hexSearchAux (n : Nat) : Bool → List Char → Bool
  | _, [] => false
  | prevWord, c :: rest =>
      ((prevWord != isWordChar c) && hexMatchAt n (c :: rest)) ||
      hexSearchAux n (isWordChar c) rest

/-- `re.compile(r'\b[a-fA-F0-9]{n}\b').search(line)`. -/
def hexSearch (n : Nat) (l : List Char) : Bool :=
  hexSearchAux n false l

/-- The bcrypt base64-like character class `[./A-Za-z0-9]`. -/
def isBcryptChar (c : Char) : Bool :=
  c.isAlphanum || c == '.' || c == '/'

/-- `PatternLibrary.BCRYPT.match(s)`: `\$2[ayb]\$\d{2}\$[./A-Za-z0-9]{53}`
anchored at the start; the pattern has no trailing anchor at all, so any
suffix after the 53 base64-like characters is accepted. -/
def bcryptMatch : List Char → Bool
  | '$' :: '2' :: v :: '$' :: d1 :: d2 :: '$' :: rest =>
      (v == 'a' || v == 'y' || v == 'b') && d1.isDigit && d2.isDigit &&
      decide (53 ≤ rest.length) && (rest.take 53).all isBcryptChar
  | _ => false

/-- The username character class `[a-zA-Z0-9._-]`. -/
def isUsernameChar (c : Char) : Bool :=
  c.isAlphanum || c == '.' || c == '_' || c == '-'

/-- `PatternLibrary.USERNAME.match(s)`: `^[a-zA-Z0-9._-]{3,32}$`, anchored at
both ends, so the whole token must be 3 to 32 username characters. -/
def usernameMatch (s : List Char) : Bool :=
  decide (3 ≤ s.length) && decide (s.length ≤ 32) && s.all isUsernameChar

/-- The separator character class `[\s\-=*#]`. -/
def isSepChar (c : Char) : Bool :=
  isPySpace c || c == '-' || c == '=' || c == '*' || c == '#'

/-- `re.match(r'^[\s\-=*#]+$', line)` (also the first noise pattern): the
line is non-empty and consists only of separator characters. -/
def sepOnly (l : List Char) : Bool :=
  !l.isEmpty && l.all isSepChar

/-- Second noise pattern, `^(username|email|password|hash|user|pass|login)`
with IGNORECASE: the lower-cased line starts with one of the keywords. -/
def noiseKeyword2 (l : List Char) : Bool :=
  let low := l.map Char.toLower
  ("username".toList).isPrefixOf low || ("email".toList).isPrefixOf low ||
  ("password".toList).isPrefixOf low || ("hash".toList).isPrefixOf low ||
  ("user".toList).isPrefixOf low || ("pass".toList).isPrefixOf low ||
  ("login".toList).isPrefixOf low

/-- Third noise pattern, `(database|dump|leak|breach|combo)` with IGNORECASE:
the lower-cased line contains one of the words. -/
def noiseKeyword3 (l : List Char) : Bool :=
  let low := l.map Char.toLower
  hasSub ("database".toList) low || hasSub ("dump".toList) low ||
  hasSub ("leak".toList) low || hasSub ("breach".toList) low ||
  hasSub ("combo".toList) low

/-- Some pattern in `PatternLibrary.NOISE_PATTERNS` fires on the line. -/
def noiseAny (l : List Char) : Bool :=
  sepOnly l || noiseKeyword2 l || noiseKeyword3 l

/-- `PatternLibrary.DELIMITERS`, in source order. -/
def DELIMITERS : List (List Char) :=
  [[':'], ['|'], [';'], ['\t'], [','], [' ', '-', ' '], ['-', '-'], ['=', '=']]

end PatternLibrary

/-- Classification of line types (`LineType` enum). -/
inductive LineType
  | VALID_CREDENTIAL
  | HEADER
  | FOOTER
  | COMMENT
  | SEPARATOR
  | GARBAGE
deriving DecidableEq

/-- Common hash types (`HashType` enum). -/
inductive HashType
  | MD5
  | SHA1
  | SHA256
  | SHA512
  | BCRYPT
  | NTLM
  | UNKNOWN
deriving DecidableEq

/-- The `.value` string of each `HashType` member. -/
def HashType.value : HashType → List Char
  | MD5 => "md5".toList
  | SHA1 => "sha1".toList
  | SHA256 => "sha256".toList
  | SHA512 => "sha512".toList
  | BCRYPT => "bcrypt".toList
  | NTLM => "ntlm".toList
  | UNKNOWN => "unknown".toList

/-- The feature dictionary built by `FeatureExtractor.extract_features`.
Ratios are exact rationals standing for the Python floats.  The float
`features['entropy']` itself is irrational in general; the classifier only
ever tests `2.0 < entropy < 5.0`, so the record carries that test
(`entropy_window`), computed exactly (see `entropyWindow`). -/
structure FeatureRecord where
  length : Nat
  has_email : Bool
  has_md5 : Bool
  has_sha1 : Bool
  has_sha256 : Bool
  alpha_ratio : Rat
  digit_ratio : Rat
  special_ratio : Rat
  whitespace_ratio : Rat
  delimiter : Option (List Char)
  field_count : Nat
  entropy_window : Bool
deriving DecidableEq

namespace FeatureExtractor

open PatternLibrary

/-- One step of `FeatureExtractor.detect_delimiter`: the Python code keeps,
in `DELIMITERS` order, the first candidate attaining the maximal positive
occurrence count (`max` over an insertion-ordered dict returns the first
maximiser, i.e. replaces the current best only on a strictly greater
count, and only counts greater than zero enter the dict). -/
def detectStep (line : List Char) (best : Option (List Char)) (d : List Char) :
    Option (List Char) :=
  if 0 < countSub d line then
    match best with
    | none => some d
    | some b => if countSub b line < countSub d line then some d else best
  else best

/-- `FeatureExtractor.detect_delimiter(line)`. -/
def detect_delimiter (line : List Char) : Option (List Char) :=
  DELIMITERS.foldl (detectStep line) none

/-- The multiset of character counts of the line (values of the
`char_counts` dictionary in `calculate_entropy`). -/
def charCounts (l : List Char) : List Nat :=
  l.dedup.map (fun c => l.count c)

/-- The classifier's entropy test `2.0 < entropy < 5.0`, evaluated exactly.
The Shannon entropy of a line of length `n` with character counts `c_i` is
`H = log2 (n^n / prod c_i^c_i) / n`, so `2 < H < 5` is equivalent to the
integer comparisons below (the empty line, `H = 0.0` in the source, falls
out of the window as required). -/
def entropyWindow (l : List Char) : Bool :=
  let n := l.length
  let prodCC := (charCounts l).foldl (fun a k => a * k ^ k) 1
  decide (2 ^ (2 * n) * prodCC < n ^ n) && decide (n ^ n < 2 ^ (5 * n) * prodCC)

/-- `FeatureExtractor.extract_features(line)`. -/
def extract_features (line : List Char) : FeatureRecord :=
  let delim := detect_delimiter line
  { length := line.length
    has_email := emailSearch line
    has_md5 := hexSearch 32 line
    has_sha1 := hexSearch 40 line
    has_sha256 := hexSearch 64 line
    alpha_ratio :=
      if line.length = 0 then 0 else ratDiv (line.countP (fun c => c.isAlpha)) line.length
    digit_ratio :=
      if line.length = 0 then 0 else ratDiv (line.countP (fun c => c.isDigit)) line.length
    special_ratio :=
      if line.length = 0 then 0
      else ratDiv (line.countP (fun c => !c.isAlphanum && !isPySpace c)) line.length
    whitespace_ratio :=
      if line.length = 0 then 0 else ratDiv (line.countP (fun c => isPySpace c)) line.length
    delimiter := delim
    field_count :=
      match delim with
      | some d => (pySplit d line).length
      | none => 1
    entropy_window := entropyWindow line }

end FeatureExtractor

namespace LineClassifier

open PatternLibrary

/-- The additive heuristic score of `LineClassifier.classify`, each
contribution applied in source order and only once (`score += …`). -/
def credScore (f : FeatureRecord) : Rat :=
  ratAdd
    (if f.has_email then q 4 10
     else if q 3 10 < f.alpha_ratio ∧ f.alpha_ratio < q 9 10 then q 2 10 else 0)
    (ratAdd (if f.has_md5 || f.has_sha1 || f.has_sha256 then q 3 10 else 0)
      (ratAdd (if f.delimiter.isSome then q 2 10 else 0)
        (ratAdd (if 2 ≤ f.field_count ∧ f.field_count ≤ 5 then q 1 10 else 0)
          (ratAdd (if f.entropy_window then q 1 10 else 0)
            (if 20 ≤ f.length ∧ f.length ≤ 200 then q 1 10 else 0)))))

/-- `LineClassifier.classify(line, features)`: the ordered decision list. -/
def classify (line : List Char) (f : FeatureRecord) : LineType × Rat :=
  if (pyStrip line).length < 3 then (LineType.GARBAGE, 1)
  else if sepOnly line then (LineType.SEPARATOR, q 9 10)
  else if q 6 10 ≤ credScore f then (LineType.VALID_CREDENTIAL, ratMin (credScore f) 1)
  else if noiseAny line then (LineType.HEADER, q 8 10)
  else (LineType.GARBAGE, ratSub 1 (credScore f))

end LineClassifier

/-- Normalized credential entry (`CredentialEntry` dataclass), with the
source defaults. -/
structure CredentialEntry where
  email : Option (List Char) := none
  username : Option (List Char) := none
  password : Option (List Char) := none
  password_hash : Option (List Char) := none
  hash_type : Option (List Char) := none
  salt : Option (List Char) := none
  additional_fields : Option (List (List Char × List Char)) := none
  confidence : Rat := 0
  line_number : Nat := 0
  detected_format : List Char := []
  source_line : List Char := []
deriving DecidableEq

/-- A JSON-compatible value of the serialized dictionary. -/
inductive JValue
  | jstr (s : List Char)
  | jnum (q : Rat)
  | jint (n : Nat)
  | jmap (m : List (List Char × List Char))
deriving DecidableEq

/-- Emit an optional string field of `CredentialEntry.to_dict` (present
exactly when the value is not `None`). -/
def optField (key : String) (v : Option (List Char)) : List (String × JValue) :=
  match v with
  | some s => [(key, JValue.jstr s)]
  | none => []

/-- `CredentialEntry.to_dict()`: the serialized dictionary, in `asdict`
field order, skipping `None` values, skipping `source_line`, and skipping
`additional_fields` when it is empty. -/
def CredentialEntry.to_dict (e : CredentialEntry) : List (String × JValue) :=
  optField ("email") e.email ++ optField ("username") e.username ++
  optField ("password") e.password ++ optField ("password_hash") e.password_hash ++
  optField ("hash_type") e.hash_type ++ optField ("salt") e.salt ++
  (match e.additional_fields with
   | some m => if m.isEmpty then [] else [(("additional_fields" : String), JValue.jmap m)]
   | none => []) ++
  [(("confidence" : String), JValue.jnum e.confidence),
   (("line_number" : String), JValue.jint e.line_number),
   (("detected_format" : String), JValue.jstr e.detected_format)]

namespace FieldExtractor

open PatternLibrary

/-- `FieldExtractor.extract_fields(line, delimiter)`. -/
def extract_fields (line : List Char) (delimiter : Option (List Char)) : List (List Char) :=
  match delimiter with
  | none =>
      let fields := pySplitWs line
      if fields.length = 1 then [pyStrip line] else fields.map pyStrip
  | some d => ((pySplit d line).map pyStrip).filter (fun f => !f.isEmpty)

/-- `FieldExtractor.identify_hash_type(hash_str)`: the pattern tests in
source order, each a Python `.match` (anchored at the start only) of the
stripped token. -/
def identify_hash_type (hash_str : List Char) : HashType :=
  let s := pyStrip hash_str
  if bcryptMatch s then HashType.BCRYPT
  else if hexMatchAt 128 s then HashType.SHA512
  else if hexMatchAt 64 s then HashType.SHA256
  else if hexMatchAt 40 s then HashType.SHA1
  else if hexMatchAt 32 s then HashType.MD5
  else HashType.UNKNOWN

/-- One iteration of the field loop of
`FieldExtractor.parse_credential_line`.  The state is the entry under
construction together with the `email_found` and `hash_found` flags. -/
def processField (st : CredentialEntry × Bool × Bool) (field0 : List Char) :
    CredentialEntry × Bool × Bool :=
  let entry := st.1
  let email_found := st.2.1
  let hash_found := st.2.2
  let field := pyStrip field0
  if field.isEmpty then st
  else if !email_found && emailMatch field then
    ({ entry with email := some field }, true, hash_found)
  else if !hash_found && decide (identify_hash_type field ≠ HashType.UNKNOWN) then
    ({ entry with password_hash := some field,
                  hash_type := some (identify_hash_type field).value }, email_found, true)
  else if entry.username.isNone && !email_found && usernameMatch field then
    ({ entry with username := some field }, email_found, hash_found)
  else if entry.password.isNone && !hash_found then
    ({ entry with password := some field }, email_found, hash_found)
  else st

/-- `FieldExtractor.parse_credential_line(line, delimiter)`. -/
def parse_credential_line (line : List Char) (delimiter : Option (List Char)) :
    CredentialEntry :=
  (((extract_fields line delimiter).foldl processField ({}, false, false))).1

end FieldExtractor

namespace MLNormalizer

open PatternLibrary

/-- `MLNormalizer._clean_line(line)`: strip, remove NUL bytes, collapse each
whitespace run to a single space (the strip guarantees no leading or
trailing run survives). -/
def collapseWs : List Char → List Char
  | [] => []
  | [c] => if isPySpace c then [' '] else [c]
  | c1 :: c2 :: rest =>
      if isPySpace c1 && isPySpace c2 then collapseWs (c2 :: rest)
      else (if isPySpace c1 then ' ' else c1) :: collapseWs (c2 :: rest)

/-- `MLNormalizer._clean_line(line)`. -/
def clean_line (line : List Char) : List Char :=
  collapseWs ((pyStrip line).filter (fun c => c != '\x00'))

/-- `MLNormalizer._detect_format(entry, features)`.  The Python code reads
`features.get('delimiter', ':')`; since `extract_features` always stores the
`'delimiter'` key (possibly with value `None`), the `':'` default is never
used, and when no delimiter was detected `delimiter` is `None`, so
`delimiter.join(parts)` raises `AttributeError` whenever `parts` is
non-empty.  The raised exception is modelled as `none`. -/
def detect_format (entry : CredentialEntry) (delim : Option (List Char)) :
    Option (List Char) :=
  let parts : List (List Char) :=
    (if entry.email.isSome then [("email".toList)] else []) ++
    (if entry.username.isSome then [("username".toList)] else []) ++
    (if entry.password.isSome then [("password".toList)] else []) ++
    (if entry.password_hash.isSome then [("hash".toList)] else [])
  if parts.isEmpty then some ("unknown".toList)
  else
    match delim with
    | some d => some (List.intercalate d parts)
    | none => none

/-- `MLNormalizer.normalize_line(line, line_number)`.  `Except.error ()`
models an exception escaping the call (which `normalize_file` catches per
line); `Except.ok none` models returning `None`. -/
def normalize_line (raw : List Char) (line_number : Nat) :
    Except Unit (Option CredentialEntry) :=
  let line := clean_line raw
  if line.isEmpty then Except.ok none
  else
    let features := FeatureExtractor.extract_features line
    let lc := LineClassifier.classify line features
    if lc.1 ≠ LineType.VALID_CREDENTIAL then Except.ok none
    else
      let entry0 := FieldExtractor.parse_credential_line line features.delimiter
      match detect_format entry0 features.delimiter with
      | none => Except.error ()
      | some fmt =>
          let entry := { entry0 with
            confidence := lc.2
            line_number := line_number
            source_line := line
            detected_format := fmt }
          if entry.email.isNone && entry.username.isNone &&
             entry.password.isNone && entry.password_hash.isNone then Except.ok none
          else Except.ok (some entry)

/-- The statistics dictionary of `MLNormalizer.normalize_file`. -/
structure RunStats where
  total_lines : Nat
  valid_credentials : Nat
  filtered_low_confidence : Nat
  errors : Nat
deriving DecidableEq

/-- The per-line loop body of `MLNormalizer.normalize_file`: count the line,
then either count an error (exception caught locally), emit (confidence at
or above the threshold), or count a filtered entry. -/
def stepLine (min_confidence : Rat) (stats : RunStats) (l : List Char) (n : Nat) : RunStats :=
  let stats1 := { stats with total_lines := stats.total_lines + 1 }
  match normalize_line l n with
  | Except.error _ => { stats1 with errors := stats1.errors + 1 }
  | Except.ok none => stats1
  | Except.ok (some e) =>
      if min_confidence ≤ e.confidence then
        { stats1 with valid_credentials := stats1.valid_credentials + 1 }
      else
        { stats1 with filtered_low_confidence := stats1.filtered_low_confidence + 1 }

/-- The line loop of `MLNormalizer.normalize_file`, with `n` the 1-based
number of the next line. -/
def runLines (min_confidence : Rat) : List (List Char) → Nat → RunStats → RunStats
  | [], _, stats => stats
  | l :: rest, n, stats => runLines min_confidence rest (n + 1) (stepLine min_confidence stats l n)

/-- `MLNormalizer.normalize_file` over the list of input lines (the model
assumes both files opened successfully; opening failures abort before any
line is processed and are outside this per-line loop). -/
def normalize_file (lines : List (List Char)) (min_confidence : Rat) : RunStats :=
  runLines min_confidence lines 1
    { total_lines := 0, valid_credentials := 0, filtered_low_confidence := 0, errors := 0 }

end MLNormalizer

/-- Equality of per-line results (needed to state that `normalize_line`
raises on a concrete input). -/
instance exceptDecEq {e a : Type} [DecidableEq e] [DecidableEq a] : DecidableEq (Except e a) := fun
  | Except.error x, Except.error y =>
      if h : x = y then Decidable.isTrue (by rw [h]) else Decidable.isFalse (by simp [h])
  | Except.error _, Except.ok _ => Decidable.isFalse (by simp)
  | Except.ok _, Except.error _ => Decidable.isFalse (by simp)
  | Except.ok x, Except.ok y =>
      if h : x = y then Decidable.isTrue (by rw [h]) else Decidable.isFalse (by simp [h])

/-- The character set `{space, -, =, *, #}` named by the specification's
separator-line property (written from the spec's words, to compare with the
source's `[\s\-=*#]` class). -/
def claimSepChar (c : Char) : Bool :=
  c == ' ' || c == '-' || c == '=' || c == '*' || c == '#'

/-- The keys of the serialized dictionary, in emission order. -/
def dictKeys (e : CredentialEntry) : List String :=
  (e.to_dict).map Prod.fst

/-- Whether a per-line result is a raised exception. -/
def isErrorResult (r : Except Unit (Option CredentialEntry)) : Bool :=
  match r with
  | Except.error _ => true
  | Except.ok _ => false

/-! ## Bridge lemmas for the kernel-computable rational wrappers -/

theorem ratAdd_eq (a b : Rat) : ratAdd a b = a + b := (Rat.add_def' a b).symm

theorem ratSub_eq (a b : Rat) : ratSub a b = a - b := (Rat.sub_def' a b).symm

theorem ratMin_eq (a b : Rat) : ratMin a b = min a b := (min_def a b).symm

theorem q_eq (n d : Nat) : q n d = (n : Rat) / d := by
  rw [q, Rat.mkRat_eq_divInt, Rat.divInt_eq_div]
  norm_num

theorem ratDiv_eq (a b : Nat) : ratDiv a b = (a : Rat) / b := q_eq a b

theorem q_nine_tenths : q 9 10 = (0.9 : Rat) := by
  rw [q_eq]
  norm_num

theorem q_six_tenths : q 6 10 = (0.6 : Rat) := by
  rw [q_eq]
  norm_num

theorem q_le_one (n : Nat) (h : n ≤ 10) : q n 10 ≤ 1 := by
  rw [q_eq]
  rw [div_le_one (by norm_num)]
  exact_mod_cast by exact_mod_cast h

theorem q_nonneg (n d : Nat) : 0 ≤ q n d := by
  rw [q_eq]
  positivity

/-- The additive score is a sum of non-negative contributions. -/
theorem credScore_nonneg (f : FeatureRecord) : 0 ≤ LineClassifier.credScore f := by
  unfold LineClassifier.credScore
  rw [ratAdd_eq, ratAdd_eq, ratAdd_eq, ratAdd_eq, ratAdd_eq]
  have h := q_nonneg
  split_ifs <;> norm_num [q_eq]

/-! ## Helper lemmas -/

theorem claimSepChar_isSepChar (c : Char) (h : claimSepChar c = true) :
    PatternLibrary.isSepChar c = true := by
  simp only [claimSepChar, Bool.or_eq_true, beq_iff_eq] at h
  rcases h with (((h | h) | h) | h) | h <;> subst h <;> decide

theorem pyStrip_nil : pyStrip [] = [] := rfl

/-! ## Claims -/

/-- C1: the claim says `normalize_line` stamps `detected_format` with the
role names joined by `':'` when no delimiter was detected.  The code cannot:
`features.get('delimiter', ':')` never uses the `':'` default because
`extract_features` always stores the `'delimiter'` key (with value `None`
when nothing was detected), so `None.join(parts)` raises `AttributeError`.
On the concrete line below — classified `ValidCredential`, no delimiter
detected, username and hash roles filled — `normalize_line` raises instead
of returning an entry with `detected_format = "username:hash"`. -/
theorem c1_detect_format_crash :
    (FeatureExtractor.extract_features
        ("myuser 5f4dcc3b5aa765d61d8327deb882cf99".toList)).delimiter = none ∧
    (LineClassifier.classify ("myuser 5f4dcc3b5aa765d61d8327deb882cf99".toList)
        (FeatureExtractor.extract_features
          ("myuser 5f4dcc3b5aa765d61d8327deb882cf99".toList))).1 = LineType.VALID_CREDENTIAL ∧
    (FieldExtractor.parse_credential_line
        ("myuser 5f4dcc3b5aa765d61d8327deb882cf99".toList) none).username =
      some ("myuser".toList) ∧
    (FieldExtractor.parse_credential_line
        ("myuser 5f4dcc3b5aa765d61d8327deb882cf99".toList) none).password_hash =
      some ("5f4dcc3b5aa765d61d8327deb882cf99".toList) ∧
    MLNormalizer.normalize_line ("myuser 5f4dcc3b5aa765d61d8327deb882cf99".toList) 1 =
      Except.error () := by
  refine ⟨by decide, by decide, by decide, by decide, by decide⟩

/-- C2, counterexample: the claim states that the password assignment has no
precondition beyond "password still unset" and "this token was not
classified as a hash".  On the line below the second token `???` is
non-empty, fails the email, hash and username checks, is not itself a hash,
and the password role is unset at its turn (and stays unset to the end) —
yet the code does not assign it, because the code's actual guard is the
`hash_found` flag (a hash was found earlier in the line), not a property of
the current token. -/
theorem c2_password_precondition_counterexample :
    PatternLibrary.emailMatch ("???".toList) = false ∧
    FieldExtractor.identify_hash_type ("???".toList) = HashType.UNKNOWN ∧
    PatternLibrary.usernameMatch ("???".toList) = false ∧
    (FieldExtractor.parse_credential_line
        ("5f4dcc3b5aa765d61d8327deb882cf99:???".toList) (some [':'])).password_hash =
      some ("5f4dcc3b5aa765d61d8327deb882cf99".toList) ∧
    (FieldExtractor.parse_credential_line
        ("5f4dcc3b5aa765d61d8327deb882cf99:???".toList) (some [':'])).password = none := by
  refine ⟨by decide, by decide, by decide, by decide, by decide⟩

/-- C2, amended: in the field loop of `parse_credential_line`, a non-empty
token for which the email, hash, and username checks have all declined is
assigned to the password role whenever the password role is still unset and
no token earlier in the line was classified as a hash (the `hash_found`
flag is unset — which, the hash check having declined, also means the token
itself is not a hash). -/
theorem c2_password_assignment_amended (entry : CredentialEntry) (ef : Bool)
    (field : List Char)
    (hne : (pyStrip field).isEmpty = false)
    (hemail : (!ef && PatternLibrary.emailMatch (pyStrip field)) = false)
    (hhash : FieldExtractor.identify_hash_type (pyStrip field) = HashType.UNKNOWN)
    (huser : (entry.username.isNone && !ef &&
        PatternLibrary.usernameMatch (pyStrip field)) = false)
    (hpw : entry.password = none) :
    (FieldExtractor.processField (entry, ef, false) field).1.password =
      some (pyStrip field) := by
  simp [FieldExtractor.processField, hne, hemail, hhash, huser, hpw]

/-- C2, witness for the amended theorem at a concrete state and token. -/
theorem c2_password_assignment_witness :
    (pyStrip ("p@ssw!rd".toList)).isEmpty = false ∧
    (FieldExtractor.processField (({} : CredentialEntry), false, false)
        ("p@ssw!rd".toList)).1.password = some (pyStrip ("p@ssw!rd".toList)) :=
  ⟨by decide,
   c2_password_assignment_amended {} false ("p@ssw!rd".toList)
     (by decide) (by decide) (by decide) (by decide) (by decide)⟩

/-- C3, counterexample: the line `--` is composed only of characters from
`{space, -, =, *, #}`, but its trimmed length is 2, so the classifier's
first rule fires and it is classified `Garbage` with confidence 1.0, not
`Separator` with confidence 0.9 as the claim states. -/
theorem c3_short_separator_counterexample :
    ("--".toList).all claimSepChar = true ∧
    LineClassifier.classify ("--".toList)
        (FeatureExtractor.extract_features ("--".toList)) = (LineType.GARBAGE, 1) ∧
    (LineClassifier.classify ("--".toList)
        (FeatureExtractor.extract_features ("--".toList))).1 ≠ LineType.SEPARATOR := by
  refine ⟨by decide, by decide, by decide⟩

/-- C3, amended: every line composed only of characters from
`{space, -, =, *, #}` whose trimmed length is at least 3 is classified
`Separator` with confidence 0.9 (for any feature record). -/
theorem c3_separator_amended (line : List Char) (f : FeatureRecord)
    (hall : line.all claimSepChar = true) (hlen : 3 ≤ (pyStrip line).length) :
    LineClassifier.classify line f = (LineType.SEPARATOR, (0.9 : Rat)) := by
  have hne : line.isEmpty = false := by
    cases line with
    | nil => simp [pyStrip_nil] at hlen
    | cons c rest => rfl
  have hsep : PatternLibrary.sepOnly line = true := by
    simp only [PatternLibrary.sepOnly, hne, Bool.not_false, Bool.true_and]
    simp only [List.all_eq_true] at hall ⊢
    exact fun c hc => claimSepChar_isSepChar c (hall c hc)
  have h3 : ¬ (pyStrip line).length < 3 := by omega
  simp [LineClassifier.classify, hsep, h3, q_nine_tenths]

/-- C3, witness for the amended theorem on the concrete line `---`. -/
theorem c3_separator_witness :
    ("---".toList).all claimSepChar = true ∧ 3 ≤ (pyStrip ("---".toList)).length ∧
    LineClassifier.classify ("---".toList)
        (FeatureExtractor.extract_features ("---".toList)) =
      (LineType.SEPARATOR, (0.9 : Rat)) :=
  ⟨by decide, by decide, c3_separator_amended _ _ (by decide) (by decide)⟩

/-- Case analysis of one `detect_delimiter` selection step: either the
current best is kept (then the candidate's count does not beat it), or the
candidate replaces it (then its count is positive and strictly beats any
previous best). -/
theorem detectStep_cases (line : List Char) (best : Option (List Char)) (c : List Char) :
    (FeatureExtractor.detectStep line best c = best ∧
      (∀ b, best = some b → countSub c line ≤ countSub b line) ∧
      (best = none → countSub c line = 0)) ∨
    (FeatureExtractor.detectStep line best c = some c ∧ 0 < countSub c line ∧
      (∀ b, best = some b → countSub b line < countSub c line)) := by
  cases best with
  | none =>
      by_cases h : 0 < countSub c line
      · right
        refine ⟨?_, h, ?_⟩
        · simp [FeatureExtractor.detectStep, h]
        · intro b hb
          cases hb
      · left
        refine ⟨?_, ?_, ?_⟩
        · simp [FeatureExtractor.detectStep, h]
        · intro b hb
          cases hb
        · intro _
          omega
  | some b =>
      by_cases h : 0 < countSub c line
      · by_cases h2 : countSub b line < countSub c line
        · right
          refine ⟨?_, h, ?_⟩
          · simp [FeatureExtractor.detectStep, h, h2]
          · intro b0 hb0
            cases hb0
            exact h2
        · left
          refine ⟨?_, ?_, ?_⟩
          · simp [FeatureExtractor.detectStep, h, h2]
          · intro b0 hb0
            cases hb0
            omega
          · intro hn
            cases hn
      · left
        refine ⟨?_, ?_, ?_⟩
        · simp [FeatureExtractor.detectStep, h]
        · intro b0 hb0
          omega
        · intro hn
          cases hn

/-- One `detect_delimiter` step yields `none` exactly when the best so far
is `none` and the candidate does not occur in the line. -/
theorem detectStep_eq_none (line : List Char) (best : Option (List Char)) (c : List Char) :
    FeatureExtractor.detectStep line best c = none ↔
      best = none ∧ countSub c line = 0 := by
  rcases detectStep_cases line best c with ⟨hs, _, hz⟩ | ⟨hs, hpos, _⟩
  · rw [hs]
    constructor
    · intro h
      exact ⟨h, hz h⟩
    · exact fun h => h.1
  · rw [hs]
    constructor
    · intro h
      cases h
    · intro h
      omega

/-- The `detect_delimiter` fold yields `none` exactly when it started from
`none` and no candidate occurs in the line. -/
theorem detectFold_none (line : List Char) (cands : List (List Char)) :
    ∀ best, cands.foldl (FeatureExtractor.detectStep line) best = none ↔
      best = none ∧ ∀ d ∈ cands, countSub d line = 0 := by
  induction cands with
  | nil =>
      intro best
      simp
  | cons c cs ih =>
      intro best
      rw [List.foldl_cons, ih]
      constructor
      · rintro ⟨h1, h2⟩
        rw [detectStep_eq_none] at h1
        refine ⟨h1.1, ?_⟩
        intro d hd
        rcases List.mem_cons.mp hd with rfl | hd2
        · exact h1.2
        · exact h2 d hd2
      · rintro ⟨h1, h2⟩
        refine ⟨?_, fun d hd => h2 d (List.mem_cons_of_mem _ hd)⟩
        rw [detectStep_eq_none]
        exact ⟨h1, h2 c (List.mem_cons_self _ _)⟩

/-- Invariant of the `detect_delimiter` fold: a returned candidate either
comes from the candidate list — splitting it so that every earlier
candidate counts strictly fewer occurrences and every later one at most as
many — or was already the accumulator, in which case no candidate beats
it. -/
theorem detectFold_some (line : List Char) (cands : List (List Char)) :
    ∀ (best : Option (List Char)) (d : List Char),
      cands.foldl (FeatureExtractor.detectStep line) best = some d →
      (∃ pre post, cands = pre ++ d :: post ∧ 0 < countSub d line ∧
        (∀ b, best = some b → countSub b line < countSub d line) ∧
        (∀ e ∈ pre, countSub e line < countSub d line) ∧
        (∀ e ∈ post, countSub e line ≤ countSub d line)) ∨
      (best = some d ∧ ∀ e ∈ cands, countSub e line ≤ countSub d line) := by
  induction cands with
  | nil =>
      intro best d h
      right
      simp only [List.foldl_nil] at h
      exact ⟨h, by simp⟩
  | cons c cs ih =>
      intro best d h
      rw [List.foldl_cons] at h
      rcases ih (FeatureExtractor.detectStep line best c) d h with
        ⟨pre, post, hcs, hcnt, hbest, hpre, hpost⟩ | ⟨hbest, hall⟩
      · left
        refine ⟨c :: pre, post, by rw [List.cons_append, hcs], hcnt, ?_, ?_, hpost⟩
        · intro b hb
          rcases detectStep_cases line best c with ⟨hs, _, _⟩ | ⟨hs, _, hlt⟩
          · exact hbest b (by rw [hs, hb])
          · exact lt_trans (hlt b hb) (hbest c hs)
        · intro e he
          rcases List.mem_cons.mp he with hec | he2
          · rw [hec]
            rcases detectStep_cases line best c with ⟨hs, hle, hz⟩ | ⟨hs, _, _⟩
            · cases best with
              | none => rw [hz rfl]; exact hcnt
              | some b0 => exact lt_of_le_of_lt (hle b0 rfl) (hbest b0 hs)
            · exact hbest c hs
          · exact hpre e he2
      · rcases detectStep_cases line best c with ⟨hs, hle, hz⟩ | ⟨hs, hpos, hlt⟩
        · right
          have hbd : best = some d := by rw [← hs, hbest]
          refine ⟨hbd, ?_⟩
          intro e he
          rcases List.mem_cons.mp he with hec | he2
          · rw [hec]
            exact hle d hbd
          · exact hall e he2
        · have hcd : c = d := by
            have := hs.symm.trans hbest
            exact Option.some.inj this
          left
          subst hcd
          refine ⟨[], cs, by simp, hpos, ?_, by simp, hall⟩
          intro b hb
          exact hlt b hb

/-- C4: `detect_delimiter` returns `none` exactly when no candidate occurs
in the line; when it returns a candidate, that candidate occurs, counts at
least as many occurrences as every other candidate, and every candidate
listed before it counts strictly fewer (so ties go to the first-listed
candidate, in the fixed order `:`, `|`, `;`, tab, `,`, ` - `, `--`, `==`). -/
theorem c4_detect_delimiter_correct (line : List Char) :
    (FeatureExtractor.detect_delimiter line = none ↔
      ∀ d ∈ PatternLibrary.DELIMITERS, countSub d line = 0) ∧
    ∀ d, FeatureExtractor.detect_delimiter line = some d →
      ∃ pre post, PatternLibrary.DELIMITERS = pre ++ d :: post ∧
        0 < countSub d line ∧
        (∀ e ∈ pre, countSub e line < countSub d line) ∧
        (∀ e ∈ post, countSub e line ≤ countSub d line) := by
  constructor
  · have h := detectFold_none line PatternLibrary.DELIMITERS none
    simpa [FeatureExtractor.detect_delimiter] using h
  · intro d h
    rcases detectFold_some line PatternLibrary.DELIMITERS none d h with
      ⟨pre, post, hsplit, hcnt, _, hpre, hpost⟩ | ⟨hb, _⟩
    · exact ⟨pre, post, hsplit, hcnt, hpre, hpost⟩
    · cases hb

/-- C4, witness: on the line `a:b` the fold selects `:`; the theorem then
yields the split of the candidate list around `:` with the count bounds. -/
theorem c4_detect_delimiter_witness :
    FeatureExtractor.detect_delimiter ("a:b".toList) = some ([':']) ∧
    ∃ pre post, PatternLibrary.DELIMITERS = pre ++ [':'] :: post ∧
      0 < countSub ([':']) ("a:b".toList) ∧
      (∀ e ∈ pre, countSub e ("a:b".toList) < countSub ([':']) ("a:b".toList)) ∧
      (∀ e ∈ post, countSub e ("a:b".toList) ≤ countSub ([':']) ("a:b".toList)) :=
  ⟨by decide, (c4_detect_delimiter_correct ("a:b".toList)).2 ([':']) (by decide)⟩

/-- C6: with the trimmed line at least 3 characters long and the
separator-only pattern not matching, a score of at least 0.6 yields
`ValidCredential` with confidence `min(score, 1.0)` — with no assumption
whatsoever about the noise patterns, because the noise check sits after the
credential check in the decision list (a line that both looks like a
credential and matches a noise keyword is still a credential; see the
witness). -/
theorem c6_credential_before_noise (line : List Char) (f : FeatureRecord)
    (hlen : 3 ≤ (pyStrip line).length)
    (hsep : PatternLibrary.sepOnly line = false)
    (hscore : (0.6 : Rat) ≤ LineClassifier.credScore f) :
    LineClassifier.classify line f =
      (LineType.VALID_CREDENTIAL, min (LineClassifier.credScore f) 1) := by
  have h3 : ¬ (pyStrip line).length < 3 := by omega
  have hq : q 6 10 ≤ LineClassifier.credScore f := by
    rw [q_six_tenths]
    exact hscore
  simp [LineClassifier.classify, h3, hsep, hq, ratMin_eq]

/-- C6, witness: the line below matches the `user…` field-name noise
keyword, yet is classified `ValidCredential` because its score reaches
0.6. -/
theorem c6_credential_before_noise_witness :
    PatternLibrary.noiseAny ("user@example.com:secretword".toList) = true ∧
    LineClassifier.classify ("user@example.com:secretword".toList)
        (FeatureExtractor.extract_features ("user@example.com:secretword".toList)) =
      (LineType.VALID_CREDENTIAL,
        min (LineClassifier.credScore
          (FeatureExtractor.extract_features ("user@example.com:secretword".toList))) 1) :=
  ⟨by decide,
   c6_credential_before_noise _ _ (by decide) (by decide)
     (by rw [← q_six_tenths]; decide)⟩

/-- C7: in every branch of the classifier decision list the returned
confidence lies in the closed interval [0, 1]: short-line Garbage (1.0),
Separator (0.9), ValidCredential (min(score, 1.0)), Header (0.8), and final
Garbage (1.0 − score, with 0 ≤ score < 0.6 in that branch). -/
theorem c7_confidence_in_unit_interval (line : List Char) (f : FeatureRecord) :
    0 ≤ (LineClassifier.classify line f).2 ∧ (LineClassifier.classify line f).2 ≤ 1 := by
  have hs0 := credScore_nonneg f
  rcases hcl : LineClassifier.classify line f with ⟨t, c⟩
  show 0 ≤ c ∧ c ≤ 1
  unfold LineClassifier.classify at hcl
  split_ifs at hcl with h1 h2 h3 h4 <;>
    injection hcl with ht hc <;> rw [← hc]
  · exact ⟨by norm_num, by norm_num⟩
  · exact ⟨q_nonneg 9 10, q_le_one 9 (by norm_num)⟩
  · rw [ratMin_eq]
    exact ⟨le_min hs0 (by norm_num), min_le_right _ _⟩
  · exact ⟨q_nonneg 8 10, q_le_one 8 (by norm_num)⟩
  · have hlt : LineClassifier.credScore f < q 6 10 := not_le.mp h3
    have hle1 : LineClassifier.credScore f ≤ 1 :=
      le_trans hlt.le (q_le_one 6 (by norm_num))
    rw [ratSub_eq]
    constructor
    · linarith
    · linarith

/-- C5, counterexample: the claim states each hash test is a full-token
(anchored) match, so a valid hash surface form followed by extra non-hash
characters would be `Unknown`.  In the code each test is a Python `.match`,
anchored at the start only; the token below — a full MD5 surface form
followed by `!` — still satisfies the trailing `\b` (word boundary before
`!`), so it is classified MD5, not Unknown. -/
theorem c5_hash_anchor_counterexample :
    FieldExtractor.identify_hash_type ("5f4dcc3b5aa765d61d8327deb882cf99!".toList) =
      HashType.MD5 ∧
    FieldExtractor.identify_hash_type ("5f4dcc3b5aa765d61d8327deb882cf99!".toList) ≠
      HashType.UNKNOWN := by
  refine ⟨by decide, by decide⟩

/-- C5, amended: `identify_hash_type` tests the kinds in the strict
precedence order BCrypt, SHA512, SHA256, SHA1, MD5, then Unknown, each test
matching the corresponding surface form at the start of the stripped token
(the hex forms additionally demanding a word boundary after the hex run —
end of token or a non-word character — and bcrypt demanding nothing after
its 53 base64-like characters), and returns the first kind whose test
matches; a token matching no test is Unknown. -/
theorem c5_hash_precedence_amended (t : List Char) :
    (FieldExtractor.identify_hash_type t = HashType.BCRYPT ↔
      PatternLibrary.bcryptMatch (pyStrip t) = true) ∧
    (FieldExtractor.identify_hash_type t = HashType.SHA512 ↔
      PatternLibrary.bcryptMatch (pyStrip t) = false ∧
      PatternLibrary.hexMatchAt 128 (pyStrip t) = true) ∧
    (FieldExtractor.identify_hash_type t = HashType.SHA256 ↔
      PatternLibrary.bcryptMatch (pyStrip t) = false ∧
      PatternLibrary.hexMatchAt 128 (pyStrip t) = false ∧
      PatternLibrary.hexMatchAt 64 (pyStrip t) = true) ∧
    (FieldExtractor.identify_hash_type t = HashType.SHA1 ↔
      PatternLibrary.bcryptMatch (pyStrip t) = false ∧
      PatternLibrary.hexMatchAt 128 (pyStrip t) = false ∧
      PatternLibrary.hexMatchAt 64 (pyStrip t) = false ∧
      PatternLibrary.hexMatchAt 40 (pyStrip t) = true) ∧
    (FieldExtractor.identify_hash_type t = HashType.MD5 ↔
      PatternLibrary.bcryptMatch (pyStrip t) = false ∧
      PatternLibrary.hexMatchAt 128 (pyStrip t) = false ∧
      PatternLibrary.hexMatchAt 64 (pyStrip t) = false ∧
      PatternLibrary.hexMatchAt 40 (pyStrip t) = false ∧
      PatternLibrary.hexMatchAt 32 (pyStrip t) = true) ∧
    (FieldExtractor.identify_hash_type t = HashType.UNKNOWN ↔
      PatternLibrary.bcryptMatch (pyStrip t) = false ∧
      PatternLibrary.hexMatchAt 128 (pyStrip t) = false ∧
      PatternLibrary.hexMatchAt 64 (pyStrip t) = false ∧
      PatternLibrary.hexMatchAt 40 (pyStrip t) = false ∧
      PatternLibrary.hexMatchAt 32 (pyStrip t) = false) := by
  simp only [FieldExtractor.identify_hash_type]
  split_ifs with h1 h2 h3 h4 h5 <;> simp_all

/-- C5, witness for the amended theorem: a 40-hex-character token is SHA1
because the bcrypt, SHA512 and SHA256 tests fail and the SHA1 test matches. -/
theorem c5_hash_precedence_witness :
    FieldExtractor.identify_hash_type
        ("5baa61e4c9b93f3f0682250b6cf8331b7ee68fd8".toList) = HashType.SHA1 :=
  ((c5_hash_precedence_amended ("5baa61e4c9b93f3f0682250b6cf8331b7ee68fd8".toList)).2.2.2.1).mpr
    ⟨by decide, by decide, by decide, by decide⟩

/-- Key membership for one optional string field of the dictionary. -/
theorem mem_optField (x k : String) (v : Option (List Char)) :
    x ∈ (optField k v).map Prod.fst ↔ x = k ∧ v ≠ none := by
  cases v <;> simp [optField]

set_option maxHeartbeats 1600000 in
/-- Characterization of the serialized dictionary's key set. -/
theorem mem_dictKeys {x : String} {e : CredentialEntry} :
    x ∈ dictKeys e ↔
      (x = "email" ∧ e.email ≠ none) ∨ (x = "username" ∧ e.username ≠ none) ∨
      (x = "password" ∧ e.password ≠ none) ∨
      (x = "password_hash" ∧ e.password_hash ≠ none) ∨
      (x = "hash_type" ∧ e.hash_type ≠ none) ∨ (x = "salt" ∧ e.salt ≠ none) ∨
      (x = "additional_fields" ∧ ∃ m, e.additional_fields = some m ∧ m ≠ []) ∨
      x = "confidence" ∨ x = "line_number" ∨ x = "detected_format" := by
  unfold dictKeys CredentialEntry.to_dict
  simp only [List.map_append, List.mem_append, mem_optField]
  rcases haf : e.additional_fields with _ | m
  · simp [haf]
    tauto
  · rcases m with _ | ⟨p, ps⟩
    · simp [haf]
      tauto
    · simp [haf]
      tauto

/-- C8: the serialized dictionary never contains `source_line`, always
contains `confidence`, `line_number` and `detected_format`, contains each
optional field exactly when it is set, and contains `additional_fields`
exactly when that mapping is set and non-empty. -/
theorem c8_to_dict_fields (e : CredentialEntry) :
    ("source_line" : String) ∉ dictKeys e ∧
    ("confidence" : String) ∈ dictKeys e ∧
    ("line_number" : String) ∈ dictKeys e ∧
    ("detected_format" : String) ∈ dictKeys e ∧
    (("email" : String) ∈ dictKeys e ↔ e.email ≠ none) ∧
    (("username" : String) ∈ dictKeys e ↔ e.username ≠ none) ∧
    (("password" : String) ∈ dictKeys e ↔ e.password ≠ none) ∧
    (("password_hash" : String) ∈ dictKeys e ↔ e.password_hash ≠ none) ∧
    (("hash_type" : String) ∈ dictKeys e ↔ e.hash_type ≠ none) ∧
    (("salt" : String) ∈ dictKeys e ↔ e.salt ≠ none) ∧
    (("additional_fields" : String) ∈ dictKeys e ↔
      ∃ m, e.additional_fields = some m ∧ m ≠ []) := by
  refine ⟨?_, ?_, ?_, ?_, ?_, ?_, ?_, ?_, ?_, ?_, ?_⟩
  · rw [mem_dictKeys]
    simp
  · rw [mem_dictKeys]
    simp
  · rw [mem_dictKeys]
    simp
  · rw [mem_dictKeys]
    simp
  · rw [mem_dictKeys]
    simp
  · rw [mem_dictKeys]
    simp
  · rw [mem_dictKeys]
    simp
  · rw [mem_dictKeys]
    simp
  · rw [mem_dictKeys]
    simp
  · rw [mem_dictKeys]
    simp
  · rw [mem_dictKeys]
    simp

/-- C8, witness: the default entry's serialized form has no `source_line`
key. -/
theorem c8_to_dict_fields_witness :
    ("source_line" : String) ∉ dictKeys ({} : CredentialEntry) :=
  (c8_to_dict_fields {}).1

/-- Whether a raw line's processing raises does not depend on the line
number (the number is only stamped into the returned entry). -/
theorem normalize_line_isError_indep (l : List Char) (n m : Nat) :
    isErrorResult (MLNormalizer.normalize_line l n) =
      isErrorResult (MLNormalizer.normalize_line l m) := by
  simp only [MLNormalizer.normalize_line]
  split_ifs <;>
    first
      | rfl
      | (cases MLNormalizer.detect_format
            (FieldExtractor.parse_credential_line (MLNormalizer.clean_line l)
              (FeatureExtractor.extract_features (MLNormalizer.clean_line l)).delimiter)
            (FeatureExtractor.extract_features (MLNormalizer.clean_line l)).delimiter <;> rfl)

/-- Per-line step of `normalize_file`: the total always grows by one, the
emitted-or-filtered count grows by at most one, and the error counter grows
by one exactly when the line's processing raises. -/
theorem stepLine_fields (minc : Rat) (s : MLNormalizer.RunStats) (l : List Char) (n : Nat) :
    (MLNormalizer.stepLine minc s l n).total_lines = s.total_lines + 1 ∧
    (MLNormalizer.stepLine minc s l n).valid_credentials +
      (MLNormalizer.stepLine minc s l n).filtered_low_confidence ≤
      s.valid_credentials + s.filtered_low_confidence + 1 ∧
    (MLNormalizer.stepLine minc s l n).errors =
      s.errors + (if isErrorResult (MLNormalizer.normalize_line l n) then 1 else 0) := by
  simp only [MLNormalizer.stepLine]
  cases hr : MLNormalizer.normalize_line l n with
  | error e =>
      simp [isErrorResult]
  | ok o =>
      cases o with
      | none =>
          simp [isErrorResult]
      | some en =>
          by_cases hc : minc ≤ en.confidence <;> simp [hc, isErrorResult] <;> omega

/-- Loop invariant of `normalize_file`: totals, emitted-or-filtered bound,
and exact error count over the remaining lines. -/
theorem runLines_stats (minc : Rat) (ls : List (List Char)) :
    ∀ (n : Nat) (s : MLNormalizer.RunStats),
      (MLNormalizer.runLines minc ls n s).total_lines = s.total_lines + ls.length ∧
      (MLNormalizer.runLines minc ls n s).valid_credentials +
        (MLNormalizer.runLines minc ls n s).filtered_low_confidence ≤
        s.valid_credentials + s.filtered_low_confidence + ls.length ∧
      (MLNormalizer.runLines minc ls n s).errors =
        s.errors + ls.countP (fun l => isErrorResult (MLNormalizer.normalize_line l 1)) := by
  induction ls with
  | nil =>
      intro n s
      simp [MLNormalizer.runLines]
  | cons l rest ih =>
      intro n s
      simp only [MLNormalizer.runLines]
      obtain ⟨iht, ihv, ihe⟩ := ih (n + 1) (MLNormalizer.stepLine minc s l n)
      obtain ⟨hst, hsv, hse⟩ := stepLine_fields minc s l n
      refine ⟨?_, ?_, ?_⟩
      · rw [iht, hst, List.length_cons]
        omega
      · rw [List.length_cons]
        omega
      · rw [ihe, hse, List.countP_cons]
        rw [normalize_line_isError_indep l n 1]
        by_cases hb : isErrorResult (MLNormalizer.normalize_line l 1) = true
        · simp [hb]
          omega
        · simp [hb]

/-- C9: over a run on `L` input lines, `total_lines` equals `L`,
`valid_credentials + filtered_low_confidence` never exceeds `L`, and every
per-line failure is caught locally and counted: the error counter equals
exactly the number of lines whose processing raises, and the run always
returns its statistics (the model function is total). -/
theorem c9_normalize_file_stats (lines : List (List Char)) (minc : Rat) :
    (MLNormalizer.normalize_file lines minc).total_lines = lines.length ∧
    (MLNormalizer.normalize_file lines minc).valid_credentials +
      (MLNormalizer.normalize_file lines minc).filtered_low_confidence ≤ lines.length ∧
    (MLNormalizer.normalize_file lines minc).errors =
      lines.countP (fun l => isErrorResult (MLNormalizer.normalize_line l 1)) := by
  obtain ⟨ht, hv, he⟩ := runLines_stats minc lines 1
    { total_lines := 0, valid_credentials := 0, filtered_low_confidence := 0, errors := 0 }
  unfold MLNormalizer.normalize_file
  refine ⟨?_, ?_, ?_⟩
  · simpa using ht
  · simpa using hv
  · simpa using he

/-- Only the decision-list branch with score at least 0.6 yields the
`ValidCredential` label, and its confidence `min(score, 1.0)` then lies in
[0.6, 1]. -/
theorem classify_valid_conf (line : List Char) (f : FeatureRecord) (t : LineType) (c : Rat)
    (h : LineClassifier.classify line f = (t, c)) :
    t = LineType.VALID_CREDENTIAL → q 6 10 ≤ c ∧ c ≤ 1 := by
  intro hv
  subst hv
  unfold LineClassifier.classify at h
  split_ifs at h with h1 h2 h3 h4 <;> injection h with ht hc
  · exact LineType.noConfusion ht
  · exact LineType.noConfusion ht
  · constructor
    · rw [← hc, ratMin_eq]
      exact le_min h3 (q_le_one 6 (by norm_num))
    · rw [← hc, ratMin_eq]
      exact min_le_right _ _
  · exact LineType.noConfusion ht
  · exact LineType.noConfusion ht

/-- An entry returned by `normalize_line` carries the `ValidCredential`
confidence, which lies in [0.6, 1]. -/
theorem normalize_line_conf (l : List Char) (n : Nat) (e : CredentialEntry)
    (h : MLNormalizer.normalize_line l n = Except.ok (some e)) :
    q 6 10 ≤ e.confidence ∧ e.confidence ≤ 1 := by
  simp only [MLNormalizer.normalize_line] at h
  rcases hcl : LineClassifier.classify (MLNormalizer.clean_line l)
      (FeatureExtractor.extract_features (MLNormalizer.clean_line l)) with ⟨t, c⟩
  rw [hcl] at h
  have hbounds := classify_valid_conf _ _ t c hcl
  dsimp only at h
  split_ifs at h with h1 h2 h3
  · exact Option.noConfusion (Except.ok.inj h)
  · exact Option.noConfusion (Except.ok.inj h)
  · split at h
    · exact Except.noConfusion h
    · exact Option.noConfusion (Except.ok.inj h)
  · have ht : t = LineType.VALID_CREDENTIAL := not_not.mp h2
    rcases hbounds ht with ⟨hb1, hb2⟩
    split at h
    · exact Except.noConfusion h
    · have he := Option.some.inj (Except.ok.inj h)
      rw [← he]
      exact ⟨hb1, hb2⟩

/-- The filtered counter never moves when the threshold is at most 0.6. -/
theorem runLines_filtered (minc : Rat) (hm : minc ≤ q 6 10) (ls : List (List Char)) :
    ∀ (n : Nat) (s : MLNormalizer.RunStats),
      (MLNormalizer.runLines minc ls n s).filtered_low_confidence =
        s.filtered_low_confidence := by
  induction ls with
  | nil =>
      intro n s
      rfl
  | cons l rest ih =>
      intro n s
      simp only [MLNormalizer.runLines]
      rw [ih]
      simp only [MLNormalizer.stepLine]
      cases hr : MLNormalizer.normalize_line l n with
      | error e => rfl
      | ok o =>
          cases o with
          | none => rfl
          | some en =>
              have hb := normalize_line_conf l n en hr
              simp [le_trans hm hb.1]

/-- C10: an entry returned by `normalize_line` always has confidence in
[0.6, 1] (only `ValidCredential` lines, with score at least 0.6 and
confidence `min(score, 1.0)`, produce entries), so a run of
`normalize_file` with threshold at most 0.6 — the default 0.5 included —
ends with `filtered_low_confidence = 0`. -/
theorem c10_confidence_and_filtering :
    (∀ (l : List Char) (n : Nat),
      match MLNormalizer.normalize_line l n with
      | Except.ok (some e) => (0.6 : Rat) ≤ e.confidence ∧ e.confidence ≤ 1
      | _ => True) ∧
    (∀ (lines : List (List Char)) (minc : Rat), minc ≤ (0.6 : Rat) →
      (MLNormalizer.normalize_file lines minc).filtered_low_confidence = 0) := by
  constructor
  · intro l n
    cases hr : MLNormalizer.normalize_line l n with
    | error e => trivial
    | ok o =>
        cases o with
        | none => trivial
        | some e =>
            have hb := normalize_line_conf l n e hr
            rw [q_six_tenths] at hb
            exact hb
  · intro lines minc hm
    have hm2 : minc ≤ q 6 10 := by
      rw [q_six_tenths]
      exact hm
    unfold MLNormalizer.normalize_file
    exact runLines_filtered minc hm2 lines 1 _

/-- C10, witness: a one-line run at the default threshold 0.5 filters
nothing. -/
theorem c10_confidence_and_filtering_witness :
    (0.5 : Rat) ≤ (0.6 : Rat) ∧
    (MLNormalizer.normalize_file [("user@example.com:password123".toList)]
        (0.5 : Rat)).filtered_low_confidence = 0 :=
  ⟨by norm_num, c10_confidence_and_filtering.2 _ _ (by norm_num)⟩

end Serializ3r
